import Mathlib

/-!
Verification of the VocalIQ voice-agent backend (backend/api/routes/voice_chat.py,
backend/api/services/elevenlabs_service.py, backend/api/services/voice_pipeline.py).

The Python orchestrator is embedded shallowly: the mutable `VoiceChatSession`
object becomes an explicit `Session` record, websocket emission becomes an
explicit event log with a send budget (the socket delivers the first `budget`
sends and raises afterwards, modelling a connection that dies at some point),
and the external providers (speech-to-text, LLM, text-to-speech) become oracle
fields of an environment record, since their network behaviour is outside the
program.  Python exceptions are modelled with `Except`: a `.error` value is a
raised exception carrying the state at the raise point.
-/

namespace VocalIQ

/-- Audio byte strings are modelled as lists of byte values. -/
abbrev Bytes := List Nat

/-- Messages the session writes to the websocket transport:
`status` events and `tts_url` reply references.  (The `backchannel` message is
sent from a fire-and-forget task and is not part of the turn being modelled.) -/
inductive Event where
  | status (s : String)
  | ttsUrl (u : String)
  deriving Repr, DecidableEq

/-- The websocket transport as seen by one session: an ordered log of the
messages that were delivered, plus a budget.  The first `budget` sends succeed;
every later send raises (the socket has died).  This models
`websocket.send_json`, which raises once the peer disconnects. -/
structure Wire where
  budget : Nat
  log : List Event
  deriving Repr, DecidableEq

/-- One send attempt: `some` is a delivered message, `none` is a raised
exception. -/
def Wire.send (w : Wire) (e : Event) : Option Wire :=
  if w.log.length < w.budget then some ⟨w.budget, w.log ++ [e]⟩ else none

/-- A send wrapped in `try: ... except Exception: pass` at the call site, as the
code does for every `send_json` of a `tts_url` message. -/
def Wire.sendWrapped (w : Wire) (e : Event) : Wire :=
  (w.send e).getD w

/-- Booking slots of the appointment flow (`self.slots` in `__init__`): each
slot holds `none` or a string; Python treats both `None` and `""` as unfilled. -/
structure Slots where
  date : Option String
  time : Option String
  name : Option String
  phone : Option String
  deriving Repr, DecidableEq

def Slots.empty : Slots := ⟨none, none, none, none⟩

/-- Lookup by slot name, mirroring `self.slots.get(key)`. -/
def Slots.get (sl : Slots) : String → Option String
  | "date" => sl.date
  | "time" => sl.time
  | "name" => sl.name
  | "phone" => sl.phone
  | _ => none

/-- Python truthiness of a slot value: `None` and the empty string are falsy. -/
def slotFilled : Option String → Bool
  | none => false
  | some s => s ≠ ""

/-- The mutable per-call state of `VoiceChatSession`, restricted to the fields
the turn logic reads and writes.  Timestamps are rationals (seconds). -/
structure Session where
  audio_buffer : List Bytes
  total_buffer_bytes : Nat
  is_processing : Bool
  is_speaking : Bool
  turn_locked : Bool
  force_next : Bool
  asked_clarify : Bool
  booking_in_progress : Bool
  use_eleven_conv : Bool
  failed_transcription_count : Nat
  speech_start_time : ℚ
  last_speech_end_time : ℚ
  last_backchannel_time : ℚ
  backchannel_count : Nat
  debounce_ms : Nat
  min_bytes_trigger : Nat
  debounceArmed : Bool
  slots : Slots
  conversation_history : List (String × String)
  deriving Repr, DecidableEq

/-- The state of a fresh session as produced by `VoiceChatSession.__init__`
(with the ElevenLabs conversational pilot off, as `CONVAI_HARD_OFF` defaults
to on). -/
def initSession : Session where
  audio_buffer := []
  total_buffer_bytes := 0
  is_processing := false
  is_speaking := false
  turn_locked := false
  force_next := false
  asked_clarify := false
  booking_in_progress := false
  use_eleven_conv := false
  failed_transcription_count := 0
  speech_start_time := 0
  last_speech_end_time := 0
  last_backchannel_time := 0
  backchannel_count := 0
  debounce_ms := 600
  min_bytes_trigger := 2000
  debounceArmed := false
  slots := Slots.empty
  conversation_history := []

/-- Result of `analyze_intent`: the function catches every exception and always
returns a dict with an intent label and extracted slots, so it is modelled as a
total oracle value. -/
structure IntentData where
  intent : String
  slots : Slots
  deriving Repr, DecidableEq

/-- Environment of one turn: the outcomes of the external calls the turn makes.
`transcription` is what `transcribe_audio` returns on the combined buffer
(it never raises, proved separately), `synthUrl` is the audio url returned by
`synthesize_speech` (`none` when text-to-speech failed; the method catches all
exceptions and returns `(None, None)`), `genResponse` is the `generate_response`
result (total: it catches exceptions and returns a fallback string), and
`echoMode` is the `ECHO_MODE` environment variable. -/
structure TurnEnv where
  transcription : String
  intent : IntentData
  genResponse : String
  synthUrl : Option String
  echoMode : Bool
  deriving Repr, DecidableEq

/-- Python `str.strip()`: drop whitespace from both ends. -/
def pyStrip (s : String) : String :=
  String.mk (((s.data.dropWhile Char.isWhitespace).reverse.dropWhile
    Char.isWhitespace).reverse)

/-- Python `str.lower()`. -/
def pyLower (s : String) : String :=
  String.mk (s.data.map Char.toLower)

/-- Recursion for the substring test: does the pattern occur in the text. -/
def containsSubGo : List Char → List Char → Bool
  | [], pat => pat.isEmpty
  | c :: rest, pat => pat.isPrefixOf (c :: rest) || containsSubGo rest pat

/-- The Python `in` operator on strings. -/
def containsSub (s pat : String) : Bool :=
  containsSubGo s.data pat.data

/-- Python set cardinality of a byte sample, `len(set(sample))`. -/
def uniqueCount (l : List Nat) : Nat := l.dedup.length

/-- Normalisation applied to the transcription before the length check:
lower-case and keep only alphanumeric and whitespace characters. -/
def normText (t : String) : String :=
  String.mk ((pyLower (pyStrip t)).data.filter (fun c => c.isAlphanum || c.isWhitespace))

/-- Word accumulation for the whitespace split, carrying the reversed current
word. -/
def pySplitGo (cur : List Char) : List Char → List (List Char)
  | [] => if cur.isEmpty then [] else [cur.reverse]
  | c :: rest =>
    if c.isWhitespace then
      if cur.isEmpty then pySplitGo [] rest else cur.reverse :: pySplitGo [] rest
    else pySplitGo (c :: cur) rest

/-- Python `str.split()` with no separator: split on whitespace runs and drop
empty pieces. -/
def splitWs (t : String) : List String :=
  (pySplitGo [] t.data).map String.mk

/-- The refusal markers of the no-refusal filter (`refuse_markers`). -/
def refuseMarkers : List String :=
  ["kann nicht helfen", "kann ich nicht helfen", "kann dir nicht helfen",
   "kann ich Ihnen nicht helfen", "leider nicht", "tut mir leid, ich kann nicht"]

/-- Merge extracted slots into the session slots (`_merge_slots`): a value is
taken only when it is a string whose strip is non-empty, and the stripped value
is stored. -/
def mergeSlots (cur ext : Slots) : Slots :=
  let keep (old : Option String) (new : Option String) : Option String :=
    match new with
    | some v => if pyStrip v ≠ "" then some (pyStrip v) else old
    | none => old
  ⟨keep cur.date ext.date, keep cur.time ext.time,
   keep cur.name ext.name, keep cur.phone ext.phone⟩

/-- Missing-slot list in the fixed order date, time, name, phone
(`_get_missing_slots`). -/
def getMissingSlots (sl : Slots) : List String :=
  ["date", "time", "name", "phone"].filter (fun k => ¬ slotFilled (sl.get k))

/-- The deterministic question for the first missing slot
(`_render_booking_prompt`). -/
def renderBookingPrompt (missing : List String) : String :=
  match missing.head? with
  | some "date" => "Für den Termin brauche ich bitte das Datum. Welcher Tag passt Ihnen?"
  | some "time" => "Welche Uhrzeit passt Ihnen für den Termin?"
  | some "name" => "Wie ist Ihr vollständiger Name?"
  | some "phone" => "Damit ich den Termin bestätigen kann: Wie lautet Ihre Telefonnummer?"
  | _ => "Können Sie das bitte kurz präzisieren?"

/-- The confirmation utterance (`_render_confirmation`). -/
def renderConfirmation (sl : Slots) : String :=
  let d := (sl.date).getD ""
  let t := (sl.time).getD ""
  let base := "Ich habe Sie am " ++ d ++ " um " ++ t ++ " eingetragen. "
  if ¬ slotFilled sl.name ∨ ¬ slotFilled sl.phone then
    base ++ "Bitte nennen Sie mir noch Ihren Namen und Ihre Telefonnummer."
  else
    base ++ "Vielen Dank, " ++ (sl.name).getD "" ++
      ". Sie erhalten gleich eine Bestätigung per SMS."

/-- Outcome of the dialogue decision of one accepted turn. -/
structure DialogueRes where
  ai : String
  booking : Bool
  slots : Slots
  deriving Repr, DecidableEq

/-- The intent / slot-filling decision of `process_buffered_audio`
(lines 453 to 476): merge the extracted slots, then either drive the booking
flow deterministically or fall through to echo mode or the LLM response. -/
def dialogueStep (bookingInProgress : Bool) (cur : Slots) (intent : IntentData)
    (echoMode : Bool) (transcription genResponse : String) : DialogueRes :=
  let label := if intent.intent = "" then "other" else pyLower intent.intent
  let merged := mergeSlots cur intent.slots
  if label = "appointment" ∨ bookingInProgress then
    let missing := getMissingSlots merged
    if missing ≠ [] then
      ⟨renderBookingPrompt missing, true, merged⟩
    else
      ⟨renderConfirmation merged, false, Slots.empty⟩
  else
    ⟨if echoMode then "Verstanden: " ++ pyStrip transcription else genResponse,
     bookingInProgress, merged⟩

/-- The no-refusal filter applied after the dialogue decision: the markers are
matched against the lower-cased response (the markers themselves are not
lower-cased in the code). -/
def applyRefusalFilter (ai : String) : String :=
  if refuseMarkers.any (fun m => containsSub (pyLower ai) m) then
    "Gerne. Sagen Sie mir kurz: Produkt, Termin, Preis oder Kontakt?"
  else ai

/-- Running result of one `process_buffered_audio` body: the session, the wire,
and whether the transcription stage was reached (the `calling transcribe_audio`
point in the code). -/
structure PBAState where
  s : Session
  w : Wire
  sttCalled : Bool
  deriving Repr, DecidableEq

/-- Final result of one `process_buffered_audio` invocation.  `raised` is true
when an exception escaped the method (possible only when a status send raised
and the `error` status send inside the handler raised as well). -/
structure PBARes where
  s : Session
  w : Wire
  raised : Bool
  sttCalled : Bool
  deriving Repr, DecidableEq

/-- The `try:` body of `process_buffered_audio` (lines 240 to 525): `.error`
is an exception escaping to the outermost handler, carrying the state at the
raise point.  `SILERO_AVAILABLE` is `False` in the module, so the voice
activity branch taken is the basic unique-byte check. -/
def processBufferedAudioCore (env : TurnEnv) (s : Session) (w : Wire) :
    Except PBAState PBAState :=
  match w.send (.status "thinking") with
  | none => .error ⟨s, w, false⟩
  | some w =>
  let s := { s with turn_locked := true, is_processing := true }
  if s.audio_buffer.isEmpty then
    if ¬ s.force_next then
      match w.send (.status "listening") with
      | none => .error ⟨s, w, false⟩
      | some w =>
        let s := { s with turn_locked := false, is_processing := false, speech_start_time := 0 }
        .ok ⟨s, w, false⟩
    else
      -- force fallback with no user input: speak a short clarification
      match w.send (.status "speaking") with
      | none => .error ⟨s, w, false⟩
      | some w =>
      let s := { s with is_speaking := true }
      let w := match env.synthUrl with
        | some u => w.sendWrapped (.ttsUrl u)
        | none => w
      match w.send (.status "listening") with
      | none => .error ⟨s, w, false⟩
      | some w =>
        let s := { s with is_speaking := false, turn_locked := false, is_processing := false, force_next := false, speech_start_time := 0 }
        .ok ⟨s, w, false⟩
  else
  let combined : Bytes := s.audio_buffer.flatten
  let s := { s with audio_buffer := [], total_buffer_bytes := 0, debounceArmed := false }
  if combined.length < 1200 ∧ ¬ s.force_next then
    match w.send (.status "listening") with
    | none => .error ⟨s, w, false⟩
    | some w =>
      let s := { s with turn_locked := false, is_processing := false, speech_start_time := 0 }
      .ok ⟨s, w, false⟩
  else
  -- basic silence / noise check on a byte sample window
  let sample := (combined.take (min 1000 combined.length)).drop 100
  if combined.length > 100 ∧ uniqueCount sample < 50 ∧ ¬ s.force_next then
    match w.send (.status "listening") with
    | none => .error ⟨s, w, false⟩
    | some w =>
      let s := { s with turn_locked := false, is_processing := false, speech_start_time := 0 }
      .ok ⟨s, w, false⟩
  else
  -- speech to text on the combined buffer
  let transcription := env.transcription
  if transcription = "" then
    let s := { s with failed_transcription_count := s.failed_transcription_count + 1 }
    if s.failed_transcription_count ≥ 3 then
      -- inner try: speak the clarification; except: swallowed;
      -- finally: reset counter, send listening (may raise), clear speaking;
      -- the finally block is written once per arm of the speaking send
      match w.send (.status "speaking") with
      | none =>
        let s := { s with failed_transcription_count := 0 }
        match w.send (.status "listening") with
        | none => .error ⟨s, w, true⟩
        | some w =>
          let s := { s with is_speaking := false }
          let s := { s with turn_locked := false, is_processing := false, force_next := false, speech_start_time := 0 }
          .ok ⟨s, w, true⟩
      | some w1 =>
        let s := { s with is_speaking := true }
        let w2 := match env.synthUrl with
          | some u => w1.sendWrapped (.ttsUrl u)
          | none => w1
        let s := { s with failed_transcription_count := 0 }
        match w2.send (.status "listening") with
        | none => .error ⟨s, w2, true⟩
        | some w =>
          let s := { s with is_speaking := false }
          let s := { s with turn_locked := false, is_processing := false, force_next := false, speech_start_time := 0 }
          .ok ⟨s, w, true⟩
    else
      match w.send (.status "listening") with
      | none => .error ⟨s, w, true⟩
      | some w =>
        let s := { s with turn_locked := false, is_processing := false, force_next := false, speech_start_time := 0 }
        .ok ⟨s, w, true⟩
  else
  let text_norm := normText transcription
  if text_norm.length < 8 ∨ (splitWs text_norm).length < 2 then
    let s := { s with failed_transcription_count := s.failed_transcription_count + 1 }
    if s.failed_transcription_count ≥ 3 then
      -- the finally block is again written once per arm of the speaking send
      match w.send (.status "speaking") with
      | none =>
        let s := { s with failed_transcription_count := 0 }
        match w.send (.status "listening") with
        | none => .error ⟨s, w, true⟩
        | some w =>
          let s := { s with is_speaking := false, turn_locked := false, is_processing := false, force_next := false, speech_start_time := 0 }
          .ok ⟨s, w, true⟩
      | some w1 =>
        let s := { s with is_speaking := true }
        let w2 := match env.synthUrl with
          | some u => w1.sendWrapped (.ttsUrl u)
          | none => w1
        let s := { s with failed_transcription_count := 0 }
        match w2.send (.status "listening") with
        | none => .error ⟨s, w2, true⟩
        | some w =>
          let s := { s with is_speaking := false, turn_locked := false, is_processing := false, force_next := false, speech_start_time := 0 }
          .ok ⟨s, w, true⟩
    else
      match w.send (.status "listening") with
      | none => .error ⟨s, w, true⟩
      | some w =>
        let s := { s with is_speaking := false, turn_locked := false, is_processing := false, force_next := false, speech_start_time := 0 }
        .ok ⟨s, w, true⟩
  else
  -- accepted turn
  let s := { s with failed_transcription_count := 0, conversation_history := s.conversation_history ++ [("user", text_norm)] }
  let dres := dialogueStep s.booking_in_progress s.slots env.intent env.echoMode
                transcription env.genResponse
  let ai := applyRefusalFilter dres.ai
  let s := { s with booking_in_progress := dres.booking, slots := dres.slots, conversation_history := s.conversation_history ++ [("assistant", ai)] }
  match w.send (.status "speaking") with
  | none => .error ⟨s, w, true⟩
  | some w =>
  let s := { s with is_speaking := true }
  let w := match env.synthUrl with
    | some u => w.sendWrapped (.ttsUrl u)
    | none => w
  match w.send (.status "listening") with
  | none => .error ⟨s, w, true⟩
  | some w =>
    let s := { s with is_speaking := false, turn_locked := false, asked_clarify := false, is_processing := false, force_next := false, speech_start_time := 0 }
    .ok ⟨s, w, true⟩

/-- `process_buffered_audio` with its outermost `except Exception` handler
(lines 527 to 534): the handler emits an `error` status and clears the flags;
when that status send itself raises, the exception escapes the method with the
flags as they were. -/
def processBufferedAudio (env : TurnEnv) (s : Session) (w : Wire) : PBARes :=
  match processBufferedAudioCore env s w with
  | .ok r => ⟨r.s, r.w, false, r.sttCalled⟩
  | .error r =>
    match r.w.send (.status "error") with
    | some w =>
      let s := { r.s with is_speaking := false, turn_locked := false, is_processing := false, force_next := false, speech_start_time := 0 }
      ⟨s, w, false, r.sttCalled⟩
    | none => ⟨r.s, r.w, true, r.sttCalled⟩

/-- Result of one `process_audio_chunk` invocation.  `forcedFlush` records
whether the hard maximum-turn branch ran `process_buffered_audio`;
`backchannel` records that a backchannel task was spawned (fire and forget,
its own sends are not part of this turn); `raised` is an exception escaping to
the websocket loop (possible only from the interruption status send). -/
structure ChunkRes where
  s : Session
  w : Wire
  raised : Bool
  forcedFlush : Bool
  backchannel : Bool
  sttCalled : Bool
  deriving Repr, DecidableEq

/-- `process_audio_chunk` (lines 142 to 222), at arrival time `now`.  The
ElevenLabs conversational branch forwards the audio elsewhere and returns; the
barge-in branch interrupts the agent; otherwise the chunk is buffered, the
debounce timer restarted, and the hard 3-second turn ceiling checked (its
`process_buffered_audio` call sits in a `try: ... except: pass`). -/
def processAudioChunk (env : TurnEnv) (s : Session) (w : Wire) (data : Bytes)
    (now : ℚ) : ChunkRes :=
  if s.use_eleven_conv then ⟨s, w, false, false, false, false⟩
  else if s.is_speaking then
    let s := { s with is_speaking := false, turn_locked := false }
    match w.send (.status "interrupted") with
    | none => ⟨s, w, true, false, false, false⟩
    | some w =>
      ⟨{ s with audio_buffer := [data], total_buffer_bytes := data.length }, w, false, false, false, false⟩
  else if s.is_processing || s.turn_locked then ⟨s, w, false, false, false, false⟩
  else
    let s := { s with audio_buffer := s.audio_buffer ++ [data], total_buffer_bytes := s.total_buffer_bytes + data.length }
    let s := if s.speech_start_time = 0 then { s with speech_start_time := now } else s
    let s := { s with last_speech_end_time := now }
    let doBack := decide (now - s.last_backchannel_time > 5)
                    && decide (s.total_buffer_bytes > 40000)
                    && decide (s.backchannel_count < 2) && !s.is_processing
    let s := if doBack then { s with last_backchannel_time := now, backchannel_count := s.backchannel_count + 1 } else s
    let s := { s with debounceArmed := true, debounce_ms := 600, min_bytes_trigger := 2000 }
    if s.speech_start_time > 0 ∧ now - s.speech_start_time ≥ 3 then
      let s := { s with force_next := true, debounceArmed := false }
      let r := processBufferedAudio env s w
      if r.raised then ⟨r.s, r.w, false, true, doBack, r.sttCalled⟩
      else ⟨{ r.s with speech_start_time := 0 }, r.w, false, true, doBack, r.sttCalled⟩
    else ⟨s, w, false, false, doBack, false⟩

/-- The debounce timer body (`_debounce_process`) at the moment the quiet
period has elapsed without cancellation: process the buffer only when it is
non-empty, the session is idle, and the byte threshold is reached or the force
flag is set; otherwise nothing happens.  The second component records whether
`process_buffered_audio` was invoked. -/
def debounceFire (env : TurnEnv) (s : Session) (w : Wire) : PBARes × Bool :=
  if s.audio_buffer ≠ [] ∧ ¬ s.is_processing ∧ ¬ s.turn_locked ∧
      (s.total_buffer_bytes ≥ s.min_bytes_trigger ∨ s.force_next) then
    (processBufferedAudio env s w, true)
  else
    (⟨s, w, false, false⟩, false)

/-- Handling of one binary websocket frame in `voice_chat_websocket`
(lines 1094 to 1103): the half-duplex gate forwards the chunk to
`process_audio_chunk` only while the agent is not speaking. -/
def handleBytesFrame (env : TurnEnv) (s : Session) (w : Wire) (data : Bytes)
    (now : ℚ) : ChunkRes :=
  if !s.is_speaking then processAudioChunk env s w data now
  else ⟨s, w, false, false, false, false⟩

/-- Feed a sequence of timed chunks to `process_audio_chunk`, stopping at the
first invocation whose hard maximum-turn ceiling forced a flush, and return
that arrival time. -/
def runChunksUntilFlush (env : TurnEnv) : Session → Wire → List (ℚ × Bytes) → Option ℚ
  | _, _, [] => none
  | s, w, (t, c) :: rest =>
    let r := processAudioChunk env s w c t
    if r.forcedFlush then some t else runChunksUntilFlush env r.s r.w rest

/-! ## ElevenLabs synthesis service (elevenlabs_service.py)

The filesystem cache of mp3 files becomes an association list from cache key
to audio bytes and write time (file mtime).  `_generate_cache_key` hashes the
content string built from text, voice id and the settings dict with sha256 and
truncates; the hash is modelled by the content triple itself, which is the
same function up to injectivity (collisions of the truncated hash are outside
the model). -/

/-- The content hashed by `_generate_cache_key`: text, voice id, and the
voice-settings values (stability, similarity boost, style). -/
structure CacheKey where
  text : String
  voice_id : String
  stability : ℚ
  similarity_boost : ℚ
  style : ℚ
  deriving Repr, DecidableEq

/-- A request to `ElevenLabsService.synthesize_speech`. -/
structure TTSReq where
  text : String
  voice_id : String
  stability : ℚ
  similarity_boost : ℚ
  style : ℚ
  deriving Repr, DecidableEq

/-- Cache key of a request (`_generate_cache_key(request.text,
request.voice_id, voice_settings)`). -/
def cacheKeyOf (r : TTSReq) : CacheKey :=
  ⟨r.text, r.voice_id, r.stability, r.similarity_boost, r.style⟩

/-- The tts_cache directory: for each key, the audio bytes and the file
mtime (hours, as a rational). -/
structure TTSCache where
  entries : List (CacheKey × (Bytes × ℚ))
  deriving Repr, DecidableEq

def TTSCache.lookup (c : TTSCache) (k : CacheKey) : Option (Bytes × ℚ) :=
  (c.entries.find? (fun e => e.1 = k)).map Prod.snd

def TTSCache.erase (c : TTSCache) (k : CacheKey) : TTSCache :=
  ⟨c.entries.filter (fun e => e.1 ≠ k)⟩

def TTSCache.insert (c : TTSCache) (k : CacheKey) (v : Bytes × ℚ) : TTSCache :=
  ⟨(k, v) :: (c.erase k).entries⟩

/-- `_get_cached_audio`: a file younger than 24 hours is returned; an older
file is unlinked and treated as a miss. -/
def getCachedAudio (c : TTSCache) (k : CacheKey) (now : ℚ) :
    Option Bytes × TTSCache :=
  match c.lookup k with
  | none => (none, c)
  | some (audio, mtime) =>
    if now - mtime < 24 then (some audio, c)
    else (none, c.erase k)

/-- The audio url built for a cache key,
`/api/audio/tts/{cache_key}.mp3`. -/
def urlOf (k : CacheKey) : String :=
  "/api/audio/tts/" ++ k.text ++ ":" ++ k.voice_id ++ ".mp3"

/-- Result of one `ElevenLabsService.synthesize_speech` call: the updated
cache, the outcome (a raised `ValueError` or the audio url), how many times
the external provider endpoint was posted to, and whether the audio came from
the cache. -/
structure SvcRes where
  cache : TTSCache
  outcome : Except String String
  providerCalls : Nat
  servedFromCache : Bool
  deriving Repr

/-- One attempt of `ElevenLabsService.synthesize_speech` (lines 94 to 174).
`providerAudio` is the oracle for the external POST: `none` is a transport or
HTTP error (the method re-raises it after logging, and the tenacity retry
decorator repeats the attempt), `some []` is an empty 200 body (raises
`ValueError`), `some audio` is a successful synthesis.  On a cache hit within
the 24-hour retention window the method returns without any provider call. -/
def svcSynthesize (apiKeyPresent : Bool) (providerAudio : Option Bytes)
    (req : TTSReq) (now : ℚ) (c : TTSCache) : SvcRes :=
  if ¬ apiKeyPresent then
    ⟨c, .error "ElevenLabs API key not configured", 0, false⟩
  else
    let k := cacheKeyOf req
    match getCachedAudio c k now with
    | (some _, c) => ⟨c, .ok (urlOf k), 0, true⟩
    | (none, c) =>
      match providerAudio with
      | none => ⟨c, .error "TTS service error", 1, false⟩
      | some audio =>
        if audio = [] then
          ⟨c, .error "Empty audio response from ElevenLabs", 1, false⟩
        else
          ⟨c.insert k (audio, now), .ok (urlOf k), 1, false⟩

/-- A sequence of identical synthesis requests at the given times, threading
the cache; returns the per-call results in order. -/
def runSynths (apiKeyPresent : Bool) (providerAudio : Option Bytes)
    (req : TTSReq) : TTSCache → List ℚ → List SvcRes
  | _, [] => []
  | c, t :: ts =>
    let r := svcSynthesize apiKeyPresent providerAudio req t c
    r :: runSynths apiKeyPresent providerAudio req r.cache ts

/-! ## Transcription client (`VoiceChatSession.transcribe_audio`)

The method body is one large `try:` whose handler makes a second Whisper
attempt and finally returns the empty string.  The network calls become oracle
outcomes; the claim of interest is the exception structure, so the embedding
keeps every `try/except` seam of the source.  One subtlety is preserved: when
the exception reaches the outer handler before the local variable `ext` was
assigned (a Deepgram transport error), the handler expression
`'webm' if ext != 'webm' else 'ogg'` raises `NameError`, which the inner
`except` of the fallback catches, so the method still returns the empty
string. -/

/-- Outcome of the primary Whisper call wrapped in `asyncio.wait_for`. -/
inductive WhisperOutcome where
  | raise
  | timeout
  | ok (transcript : String)
  deriving Repr, DecidableEq

/-- Oracles for one `transcribe_audio` invocation. -/
structure STTEnv where
  hasDeepgramKey : Bool
  deepgramRaises : Bool
  deepgramStatus : Nat
  deepgramTranscript : String
  forceWebm : Bool
  conversionOk : Bool
  clientFormat : String
  whisper : WhisperOutcome
  fallbackRaises : Bool
  fallbackTranscript : String
  deriving Repr, DecidableEq

/-- The hallucination artifact list filtered from Whisper output. -/
def hallucinationPatterns : List String :=
  ["Untertitel der Amara.org-Community", "Amara.org", "Thank you for watching",
   "Thanks for watching", "[Music]", "[Musik]", "[Applaus]", "[Applause]"]

/-- Matching a transcript against the artifact list returns the empty string
(`return ""` in the loop); otherwise the transcript is kept. -/
def filterHallucination (t : String) : String :=
  if hallucinationPatterns.any (fun p => containsSub (pyLower t) (pyLower p)) then ""
  else t

/-- The container extension chosen for the Whisper upload. -/
def whisperExt (env : STTEnv) : String :=
  if env.forceWebm then
    if env.clientFormat = "mp4" ∨ env.clientFormat = "m4a" then "m4a" else "webm"
  else if env.conversionOk then "wav"
  else if env.clientFormat = "mp4" ∨ env.clientFormat = "m4a" then "m4a" else "webm"

/-- The Whisper stage of `transcribe_audio` (lines 579 to 695): primary call
with a 30 second timeout, hallucination filter, and on a raise the second
attempt with the alternative container extension, itself guarded so that any
failure yields the empty string. -/
def whisperStage (env : STTEnv) : Except Unit String :=
  let _ext := whisperExt env
  match env.whisper with
  | .timeout => .ok ""
  | .ok t => .ok (filterHallucination t)
  | .raise =>
    if env.fallbackRaises then .ok ""
    else .ok (filterHallucination env.fallbackTranscript)

/-- `transcribe_audio` (lines 536 to 695): Deepgram first when a key is
present, Whisper otherwise or on a Deepgram non-success or empty transcript.
`.error` would be an exception escaping to the caller; every path returns. -/
def transcribe_audio (env : STTEnv) : Except Unit String :=
  if env.hasDeepgramKey then
    if env.deepgramRaises then
      -- outer handler, ext unbound: NameError inside the fallback try,
      -- caught there, then return ""
      .ok ""
    else if env.deepgramStatus = 200 then
      let text := pyStrip env.deepgramTranscript
      if text ≠ "" then .ok text else whisperStage env
    else whisperStage env
  else whisperStage env

/-! ## Telephony codec adapter (voice_pipeline.py)

`_ulaw_to_pcm` and `_pcm_to_ulaw` wrap the CPython `audioop` primitives
`ulaw2lin`, `lin2ulaw` and `ratecv` (width 2, one channel) in a `try` whose
handler returns the original input bytes.  The `audioop` integer arithmetic is
reproduced exactly: `ratecv` interpolates at a 32-bit sample scale and stores
with an arithmetic right shift, so the interpolated sample is the floor
average of its neighbours. -/

/-- One mu-law byte to a linear 16-bit sample (`st_ulaw2linear16`). -/
def ulawDecodeSample (u : Nat) : Int :=
  let v := 255 - (u % 256)
  let t : Nat := (((v &&& 0xf) <<< 3) + 0x84) <<< ((v &&& 0x70) >>> 4)
  if v &&& 0x80 ≠ 0 then (0x84 : Int) - (t : Int) else (t : Int) - 0x84

/-- The segment table of the mu-law encoder (`seg_uend`). -/
def segUend : List Nat := [0x3F, 0x7F, 0xFF, 0x1FF, 0x3FF, 0x7FF, 0xFFF, 0x1FFF]

/-- One linear 16-bit sample to a mu-law byte: `st_14linear2ulaw` applied to
the sample arithmetically shifted right by two, as `lin2ulaw` does for
width 2. -/
def ulawEncodeSample (sample : Int) : Nat :=
  let pcm0 : Int := Int.fdiv sample 4
  let mask : Nat := if pcm0 < 0 then 0x7F else 0xFF
  let mag : Int := if pcm0 < 0 then -pcm0 else pcm0
  let mag : Int := if mag > 8159 then 8159 else mag
  let pcm : Nat := (mag + 33).toNat
  match (List.range 8).find? (fun i => pcm ≤ segUend.getD i 0) with
  | none => 0x7F ^^^ mask
  | some seg => (((seg <<< 4) ||| ((pcm >>> (seg + 1)) &&& 0xF)) ^^^ mask)

/-- Two little-endian bytes to a signed 16-bit sample. -/
def int16OfBytes (b0 b1 : Nat) : Int :=
  let u := (b0 % 256) + 256 * (b1 % 256)
  if u < 32768 then (u : Int) else (u : Int) - 65536

/-- A signed sample to its two little-endian bytes. -/
def bytesOfInt16 (s : Int) : List Nat :=
  let u := (s % 65536).toNat
  [u % 256, u / 256]

/-- Consecutive byte pairs to samples (frame decoding for width 2). -/
def samplesOfBytes : List Nat → List Int
  | b0 :: b1 :: rest => int16OfBytes b0 b1 :: samplesOfBytes rest
  | _ => []

/-- Samples to their little-endian byte serialisation. -/
def bytesOfSamples (l : List Int) : List Nat :=
  l.flatMap bytesOfInt16

/-- Tail of the 8 to 16 kHz resampler, carrying the previous sample: every
sample `c` with predecessor `p` contributes the floor average of `p` and `c`
followed by `c` itself. -/
def upsample2Go (prev : Int) : List Int → List Int
  | [] => []
  | c :: rest => Int.fdiv (prev + c) 2 :: c :: upsample2Go c rest

/-- `ratecv` from 8 kHz to 16 kHz: the first input sample is emitted as is,
then interpolation proceeds pairwise. -/
def upsample2 : List Int → List Int
  | [] => []
  | s :: rest => s :: upsample2Go s rest

/-- `ratecv` from 16 kHz to 8 kHz: every second sample is kept, starting with
the first. -/
def downsample2 : List Int → List Int
  | [] => []
  | [s] => [s]
  | s :: _ :: rest => s :: downsample2 rest

/-- `_ulaw_to_pcm` (lines 147 to 157): decompress each companded byte with
`audioop.ulaw2lin(_, 2)`, then resample the resulting frames from 8 kHz to
16 kHz; the handler returning the input is unreachable because the
decompressed byte string always holds whole frames. -/
def ulaw_to_pcm (ulaw : Bytes) : Bytes :=
  let pcm := bytesOfSamples (ulaw.map ulawDecodeSample)
  if pcm.length % 2 = 0 then bytesOfSamples (upsample2 (samplesOfBytes pcm))
  else ulaw

/-- `_pcm_to_ulaw` (lines 159 to 169): resample from 16 kHz to 8 kHz, then
compand each frame; `ratecv` raises on a byte string that is not a whole
number of frames and the handler then returns the original input. -/
def pcm_to_ulaw (pcm : Bytes) : Bytes :=
  if pcm.length % 2 = 0 then (downsample2 (samplesOfBytes pcm)).map ulawEncodeSample
  else pcm

/-! ## Helper definitions for the statements -/

/-- Whether an event is a reply reference (`tts_url` message). -/
def isTts : Event → Bool
  | .ttsUrl _ => true
  | .status _ => false

/-- Number of replies in a transport log. -/
def countTts (l : List Event) : Nat := l.countP isTts

/-- The transcription is rejected as too short by the length check of
`process_buffered_audio`. -/
def tooShort (t : String) : Prop :=
  (normText t).length < 8 ∨ (splitWs (normText t)).length < 2

instance (t : String) : Decidable (tooShort t) := by
  unfold tooShort; infer_instance

/-- All four booking slots are non-empty. -/
def allSlotsFilled (sl : Slots) : Prop :=
  slotFilled sl.date ∧ slotFilled sl.time ∧ slotFilled sl.name ∧ slotFilled sl.phone

instance (sl : Slots) : Decidable (allSlotsFilled sl) := by
  unfold allSlotsFilled; infer_instance

/-! ## Supporting lemmas -/

lemma send_log {w : Wire} {e : Event} {w1 : Wire} (h : w.send e = some w1) :
    w1.log = w.log ++ [e] ∧ w1.budget = w.budget := by
  unfold Wire.send at h
  split at h
  · cases h; exact ⟨rfl, rfl⟩
  · cases h

lemma send_ok {w : Wire} (e : Event) (h : w.log.length < w.budget) :
    w.send e = some ⟨w.budget, w.log ++ [e]⟩ := by
  unfold Wire.send
  exact if_pos h

lemma sendWrapped_log (w : Wire) (e : Event) :
    ((w.sendWrapped e).log = w.log ++ [e] ∨ (w.sendWrapped e).log = w.log) ∧
      (w.sendWrapped e).budget = w.budget := by
  unfold Wire.sendWrapped Wire.send
  split
  · exact ⟨Or.inl rfl, rfl⟩
  · exact ⟨Or.inr rfl, rfl⟩

lemma countTts_append (l m : List Event) :
    countTts (l ++ m) = countTts l + countTts m := by
  unfold countTts
  exact List.countP_append _ _ _

lemma countTts_status (l : List Event) (x : String) :
    countTts (l ++ [.status x]) = countTts l := by
  simp [countTts_append, countTts, isTts]

lemma countTts_tts (l : List Event) (u : String) :
    countTts (l ++ [.ttsUrl u]) = countTts l + 1 := by
  simp [countTts_append, countTts, isTts]

lemma countTts_sendWrapped_tts (w : Wire) (u : String) :
    countTts (w.sendWrapped (.ttsUrl u)).log ≤ countTts w.log + 1 := by
  rcases (sendWrapped_log w (.ttsUrl u)).1 with h | h <;> rw [h]
  · rw [countTts_tts]
  · omega

lemma missing_nil_iff (sl : Slots) :
    getMissingSlots sl = [] ↔ allSlotsFilled sl := by
  unfold getMissingSlots allSlotsFilled
  rw [List.filter_eq_nil_iff]
  constructor
  · intro h
    refine ⟨?_, ?_, ?_, ?_⟩ <;>
      [have := h "date" (by simp); have := h "time" (by simp);
       have := h "name" (by simp); have := h "phone" (by simp)] <;>
      simpa [Slots.get] using this
  · rintro ⟨h1, h2, h3, h4⟩ k hk
    fin_cases hk <;> simp [Slots.get, h1, h2, h3, h4]

lemma bytesOfSamples_length (l : List Int) :
    (bytesOfSamples l).length = 2 * l.length := by
  induction l with
  | nil => rfl
  | cons s rest ih =>
    simp only [bytesOfSamples, List.flatMap_cons, List.length_append,
      List.length_cons] at *
    have h2 : (bytesOfInt16 s).length = 2 := rfl
    omega

lemma upsample2Go_length (p : Int) (l : List Int) :
    (upsample2Go p l).length = 2 * l.length := by
  induction l generalizing p with
  | nil => rfl
  | cons c rest ih =>
    simp only [upsample2Go, List.length_cons, ih]
    omega

lemma ulawDecodeSample_mod (b : Nat) :
    ulawDecodeSample b = ulawDecodeSample (b % 256) := by
  unfold ulawDecodeSample
  rw [Nat.mod_mod_of_dvd b (dvd_refl 256)]

set_option maxRecDepth 4000 in
lemma ulawDecodeSample_range_fin :
    ∀ v : Fin 256, -32768 ≤ ulawDecodeSample v.val ∧ ulawDecodeSample v.val ≤ 32767 := by
  decide

lemma ulawDecodeSample_range (b : Nat) :
    -32768 ≤ ulawDecodeSample b ∧ ulawDecodeSample b ≤ 32767 := by
  rw [ulawDecodeSample_mod b]
  exact ulawDecodeSample_range_fin ⟨b % 256, Nat.mod_lt b (by norm_num)⟩

lemma int16_roundtrip (s : Int) (h1 : -32768 ≤ s) (h2 : s ≤ 32767) :
    int16OfBytes ((s % 65536).toNat % 256) ((s % 65536).toNat / 256) = s := by
  unfold int16OfBytes
  dsimp only
  have hm0 : (0 : Int) ≤ s % 65536 := Int.emod_nonneg s (by norm_num)
  have hml : s % 65536 < 65536 := Int.emod_lt_of_pos s (by norm_num)
  have hchar : s % 65536 = s ∨ s % 65536 = s + 65536 := by omega
  split <;> omega

lemma samplesOfBytes_bytesOfSamples (l : List Int)
    (h : ∀ s ∈ l, -32768 ≤ s ∧ s ≤ 32767) :
    samplesOfBytes (bytesOfSamples l) = l := by
  induction l with
  | nil => rfl
  | cons s rest ih =>
    simp only [bytesOfSamples, List.flatMap_cons, bytesOfInt16,
      List.cons_append, List.nil_append] at *
    have hs := h s (List.mem_cons_self s rest)
    rw [samplesOfBytes, ih (fun x hx => h x (List.mem_cons_of_mem s hx))]
    rw [int16_roundtrip s hs.1 hs.2]

/-- C9: the telephony codec adapter is total and always returns usable bytes:
`_ulaw_to_pcm` decompresses each companded mu-law byte to a 16-bit linear
sample (always within the signed 16-bit range) and resamples the 8 kHz stream
to 16 kHz, never taking its fallback branch; `_pcm_to_ulaw` performs the
inverse, downsampling to 8 kHz and companding each frame, and on a conversion
failure (a byte string that is not a whole number of 16-bit frames, on which
`audioop.ratecv` raises) it returns its original input bytes unchanged rather
than raising. -/
theorem codec_adapter_total :
    (∀ ulaw : Bytes,
      ulaw_to_pcm ulaw = bytesOfSamples (upsample2 (ulaw.map ulawDecodeSample)))
    ∧ (∀ b : Nat, -32768 ≤ ulawDecodeSample b ∧ ulawDecodeSample b ≤ 32767)
    ∧ (∀ ulaw : Bytes, ulaw ≠ [] →
        (upsample2 (ulaw.map ulawDecodeSample)).length = 2 * ulaw.length - 1)
    ∧ (∀ pcm : Bytes, pcm.length % 2 = 0 →
        pcm_to_ulaw pcm = (downsample2 (samplesOfBytes pcm)).map ulawEncodeSample)
    ∧ (∀ pcm : Bytes, pcm.length % 2 = 1 → pcm_to_ulaw pcm = pcm) := by
  refine ⟨?_, ulawDecodeSample_range, ?_, ?_, ?_⟩
  · intro ulaw
    unfold ulaw_to_pcm
    dsimp only
    have hlen : (bytesOfSamples (ulaw.map ulawDecodeSample)).length % 2 = 0 := by
      rw [bytesOfSamples_length]
      omega
    rw [if_pos hlen]
    congr 1
    congr 1
    apply samplesOfBytes_bytesOfSamples
    intro s hs
    rw [List.mem_map] at hs
    obtain ⟨b, _, rfl⟩ := hs
    exact ulawDecodeSample_range b
  · intro ulaw hne
    match ulaw with
    | [] => exact absurd rfl hne
    | b :: rest =>
      simp only [List.map_cons, upsample2, List.length_cons,
        upsample2Go_length, List.length_map]
      omega
  · intro pcm h
    unfold pcm_to_ulaw
    rw [if_pos h]
  · intro pcm h
    unfold pcm_to_ulaw
    rw [if_neg]
    omega

/-- Witness for the codec theorem at concrete inputs: a one-byte mu-law frame
and a three-byte (odd) PCM input exercising the hypothesis-bearing parts. -/
theorem codec_adapter_total_witness :
    (([7] : Bytes) ≠ [] ∧ (upsample2 (([7] : Bytes).map ulawDecodeSample)).length = 2 * ([7] : Bytes).length - 1)
    ∧ (([1, 2, 3] : Bytes).length % 2 = 1 ∧ pcm_to_ulaw [1, 2, 3] = [1, 2, 3]) :=
  ⟨⟨by decide, codec_adapter_total.2.2.1 [7] (by decide)⟩,
   ⟨by decide, codec_adapter_total.2.2.2.2 [1, 2, 3] (by decide)⟩⟩

lemma whisperStage_isOk (env : STTEnv) : (whisperStage env).isOk = true := by
  unfold whisperStage
  dsimp only
  cases hw : env.whisper with
  | timeout => rfl
  | ok t => rfl
  | raise =>
    by_cases hf : env.fallbackRaises = true
    · rw [if_pos hf]; rfl
    · rw [if_neg hf]; rfl

lemma whisperStage_allFail (env : STTEnv) (hw : env.whisper = .raise)
    (hf : env.fallbackRaises = true) : whisperStage env = .ok "" := by
  unfold whisperStage
  dsimp only
  rw [hw]
  rw [if_pos hf]

/-- C8: `transcribe_audio` never raises to its caller: for every combination
of provider outcomes (Deepgram transport error or non-success status, Whisper
timeout or error, conversion error, fallback error) the method returns a
string, and when the primary provider yields no text and both Whisper attempts
fail the result is the empty string, which the orchestrator treats as no
speech recognised. -/
theorem transcribe_audio_total :
    (∀ env : STTEnv, (transcribe_audio env).isOk = true)
    ∧ (∀ env : STTEnv,
        (env.hasDeepgramKey = true →
          env.deepgramRaises = true ∨ env.deepgramStatus ≠ 200 ∨
            pyStrip env.deepgramTranscript = "") →
        env.whisper = .raise → env.fallbackRaises = true →
        transcribe_audio env = .ok "") := by
  constructor
  · intro env
    unfold transcribe_audio
    by_cases hk : env.hasDeepgramKey = true
    · rw [if_pos hk]
      by_cases hr : env.deepgramRaises = true
      · rw [if_pos hr]; rfl
      · rw [if_neg hr]
        by_cases hs : env.deepgramStatus = 200
        · rw [if_pos hs]
          dsimp only
          by_cases ht : pyStrip env.deepgramTranscript ≠ ""
          · rw [if_pos ht]; rfl
          · rw [if_neg ht]; exact whisperStage_isOk env
        · rw [if_neg hs]; exact whisperStage_isOk env
    · rw [if_neg hk]; exact whisperStage_isOk env
  · intro env hdg hw hf
    have hstage : whisperStage env = .ok "" := whisperStage_allFail env hw hf
    unfold transcribe_audio
    by_cases hk : env.hasDeepgramKey = true
    · rw [if_pos hk]
      by_cases hr : env.deepgramRaises = true
      · rw [if_pos hr]
      · rw [if_neg hr]
        rcases hdg hk with h | h | h
        · exact absurd h hr
        · rw [if_neg h]
          exact hstage
        · by_cases hs : env.deepgramStatus = 200
          · rw [if_pos hs]
            dsimp only
            rw [if_neg (by simp [h])]
            exact hstage
          · rw [if_neg hs]
            exact hstage
    · rw [if_neg hk]
      exact hstage

/-- Witness for the transcription totality theorem: a concrete environment
where Deepgram returns HTTP 500, Whisper raises, and the fallback raises. -/
theorem transcribe_audio_total_witness :
    transcribe_audio ⟨true, false, 500, "x", false, true, "webm", .raise, true, ""⟩ = .ok "" :=
  transcribe_audio_total.2 ⟨true, false, 500, "x", false, true, "webm", .raise, true, ""⟩
    (fun _ => Or.inr (Or.inl (by decide))) rfl rfl

lemma lookup_insert (c : TTSCache) (k : CacheKey) (v : Bytes × ℚ) :
    (c.insert k v).lookup k = some v := by
  unfold TTSCache.insert TTSCache.lookup
  rw [List.find?_cons_of_pos _ (by simp)]
  rfl

lemma svc_hit (pa : Option Bytes) (req : TTSReq) (audio : Bytes) (t0 now : ℚ)
    (c : TTSCache) (hc : c.lookup (cacheKeyOf req) = some (audio, t0))
    (hwin : now - t0 < 24) :
    svcSynthesize true pa req now c = ⟨c, .ok (urlOf (cacheKeyOf req)), 0, true⟩ := by
  unfold svcSynthesize getCachedAudio
  rw [if_neg (by simp)]
  dsimp only
  rw [hc]
  dsimp only
  rw [if_pos hwin]

lemma svc_miss (req : TTSReq) (audio : Bytes) (t0 : ℚ) (c : TTSCache)
    (hmiss : c.lookup (cacheKeyOf req) = none) (ha : audio ≠ []) :
    svcSynthesize true (some audio) req t0 c =
      ⟨c.insert (cacheKeyOf req) (audio, t0), .ok (urlOf (cacheKeyOf req)), 1, false⟩ := by
  unfold svcSynthesize getCachedAudio
  rw [if_neg (by simp)]
  dsimp only
  rw [hmiss]
  dsimp only
  rw [if_neg ha]

lemma runSynths_hits (req : TTSReq) (pa : Option Bytes) (audio : Bytes) (t0 : ℚ)
    (ts : List ℚ) (c : TTSCache)
    (hc : c.lookup (cacheKeyOf req) = some (audio, t0))
    (hwin : ∀ t ∈ ts, t - t0 < 24) :
    ∀ r ∈ runSynths true pa req c ts,
      r.servedFromCache = true ∧ r.providerCalls = 0 ∧
        r.outcome = .ok (urlOf (cacheKeyOf req)) := by
  induction ts generalizing c with
  | nil => intro r hr; cases hr
  | cons t ts ih =>
    intro r hr
    rw [runSynths] at hr
    rw [svc_hit pa req audio t0 t c hc (hwin t (List.mem_cons_self t ts))] at hr
    rcases List.mem_cons.mp hr with h | h
    · subst h
      exact ⟨rfl, rfl, rfl⟩
    · exact ih c hc (fun u hu => hwin u (List.mem_cons_of_mem t hu)) r h

/-- C7: the synthesis cache is idempotent over the 24-hour retention window:
for a sequence of requests with identical text, voice id and voice settings,
all within 24 hours of the first, starting from a cache without the key and
with a succeeding provider, the first request posts to the provider exactly
once and writes the audio under the content-derived key, and every later
request is served from the cache (same url, zero provider calls), so the
external provider is invoked exactly once in total. -/
theorem synthesis_cache_idempotent (req : TTSReq) (audio : Bytes)
    (c0 : TTSCache) (t0 : ℚ) (ts : List ℚ)
    (hmiss : c0.lookup (cacheKeyOf req) = none)
    (haudio : audio ≠ [])
    (hwin : ∀ t ∈ ts, t - t0 < 24) :
    ((runSynths true (some audio) req c0 (t0 :: ts)).map SvcRes.providerCalls).sum = 1
    ∧ (runSynths true (some audio) req c0 (t0 :: ts)).head? =
        some ⟨c0.insert (cacheKeyOf req) (audio, t0), .ok (urlOf (cacheKeyOf req)), 1, false⟩
    ∧ (∀ r ∈ (runSynths true (some audio) req c0 (t0 :: ts)).tail,
        r.servedFromCache = true ∧ r.providerCalls = 0 ∧
          r.outcome = .ok (urlOf (cacheKeyOf req))) := by
  have hfst := svc_miss req audio t0 c0 hmiss haudio
  have hrun : runSynths true (some audio) req c0 (t0 :: ts) =
      (⟨c0.insert (cacheKeyOf req) (audio, t0), .ok (urlOf (cacheKeyOf req)), 1, false⟩ : SvcRes) ::
        runSynths true (some audio) req (c0.insert (cacheKeyOf req) (audio, t0)) ts := by
    rw [runSynths, hfst]
  have htail := runSynths_hits req (some audio) audio t0 ts
    (c0.insert (cacheKeyOf req) (audio, t0))
    (lookup_insert c0 (cacheKeyOf req) (audio, t0)) hwin
  refine ⟨?_, ?_, ?_⟩
  · rw [hrun]
    simp only [List.map_cons, List.sum_cons]
    have : ∀ x ∈ (runSynths true (some audio) req
        (c0.insert (cacheKeyOf req) (audio, t0)) ts).map SvcRes.providerCalls, x = 0 := by
      intro x hx
      rw [List.mem_map] at hx
      obtain ⟨r, hr, rfl⟩ := hx
      exact (htail r hr).2.1
    rw [List.sum_eq_zero this]
    omega
  · rw [hrun]
    rfl
  · rw [hrun]
    intro r hr
    exact htail r hr

/-- Witness for the cache idempotence theorem: a concrete request made at
hours 0, 1 and 23 against an empty cache. -/
theorem synthesis_cache_idempotent_witness :
    ((⟨[]⟩ : TTSCache).lookup (cacheKeyOf ⟨"Hallo", "v1", 1, 2, 3⟩) = none
      ∧ ([1, 2] : Bytes) ≠ [] ∧ ∀ t ∈ ([1, 23] : List ℚ), t - 0 < 24)
    ∧ ((runSynths true (some [1, 2]) ⟨"Hallo", "v1", 1, 2, 3⟩ ⟨[]⟩
        ((0 : ℚ) :: [1, 23])).map SvcRes.providerCalls).sum = 1 :=
  ⟨⟨rfl, by decide, by intro t ht; fin_cases ht <;> norm_num⟩,
   (synthesis_cache_idempotent ⟨"Hallo", "v1", 1, 2, 3⟩ [1, 2] ⟨[]⟩ 0 [1, 23]
     rfl (by decide) (by intro t ht; fin_cases ht <;> norm_num)).1⟩

/-- C6: in the booking flow (appointment intent recognised or a booking in
progress), after merging the newly extracted slots, the confirmation utterance
is rendered if and only if all four slots (date, time, name, phone) are
non-empty; when it is rendered, the slots are reset to empty and the
booking-in-progress flag is cleared; while at least one slot is missing, the
agent instead renders the question for the first missing slot in the fixed
order date, time, name, phone, keeps the merged slots, and keeps the flag
set. -/
theorem booking_confirmation_iff (b : Bool) (cur : Slots) (intentData : IntentData)
    (echoMode : Bool) (tr gen : String)
    (hb : (if intentData.intent = "" then "other" else pyLower intentData.intent)
            = "appointment" ∨ b = true) :
    (getMissingSlots (mergeSlots cur intentData.slots) = [] ↔
        allSlotsFilled (mergeSlots cur intentData.slots))
    ∧ (allSlotsFilled (mergeSlots cur intentData.slots) →
        dialogueStep b cur intentData echoMode tr gen =
          ⟨renderConfirmation (mergeSlots cur intentData.slots), false, Slots.empty⟩)
    ∧ (¬ allSlotsFilled (mergeSlots cur intentData.slots) →
        dialogueStep b cur intentData echoMode tr gen =
          ⟨renderBookingPrompt (getMissingSlots (mergeSlots cur intentData.slots)),
           true, mergeSlots cur intentData.slots⟩) := by
  refine ⟨missing_nil_iff _, ?_, ?_⟩
  · intro hall
    unfold dialogueStep
    dsimp only
    rw [if_pos (by rcases hb with h | h; exact Or.inl h; exact Or.inr (by simp [h]))]
    rw [if_neg (by simpa using (missing_nil_iff _).mpr hall)]
  · intro hnall
    unfold dialogueStep
    dsimp only
    rw [if_pos (by rcases hb with h | h; exact Or.inl h; exact Or.inr (by simp [h]))]
    rw [if_pos (by simpa using fun hnil => hnall ((missing_nil_iff _).mp hnil))]

/-- Witness for the booking theorem: a booking in progress with date and time
already collected and the name and phone arriving in the current utterance. -/
theorem booking_confirmation_iff_witness :
    ((if ("appointment" : String) = "" then "other" else pyLower ("appointment" : String))
        = "appointment" ∨ true = true)
    ∧ allSlotsFilled (mergeSlots ⟨some "2024-06-01", some "14:00", none, none⟩
        ⟨none, none, some "Maria Schmidt", some "+491701234567"⟩)
    ∧ dialogueStep true ⟨some "2024-06-01", some "14:00", none, none⟩
        ⟨"appointment", ⟨none, none, some "Maria Schmidt", some "+491701234567"⟩⟩
        false "tr" "gen" =
      ⟨renderConfirmation (mergeSlots ⟨some "2024-06-01", some "14:00", none, none⟩
          ⟨none, none, some "Maria Schmidt", some "+491701234567"⟩),
       false, Slots.empty⟩ :=
  ⟨Or.inr rfl, by decide,
   (booking_confirmation_iff true ⟨some "2024-06-01", some "14:00", none, none⟩
      ⟨"appointment", ⟨none, none, some "Maria Schmidt", some "+491701234567"⟩⟩
      false "tr" "gen" (Or.inr rfl)).2.1 (by decide)⟩

/-- A fixed oracle environment for concrete runs: an accepted transcription,
no appointment intent, a generated reply, and a succeeding synthesis. -/
def sampleEnv : TurnEnv :=
  ⟨"hallo ich moechte gerne etwas wissen", ⟨"other", Slots.empty⟩,
   "Gerne, wobei kann ich helfen?", some "/api/audio/tts/u1.mp3", false⟩

/-- C3 counterexample: when the debounce timer fires with 1999 buffered bytes
(one below the 2000-byte threshold) and no force flag, no processing happens
and the buffer is retained rather than cleared, contradicting the claim that
a sub-threshold buffer is discarded with the buffer cleared. -/
theorem debounce_below_threshold_keeps_buffer :
    (debounceFire sampleEnv
        { initSession with audio_buffer := [List.replicate 1999 7], total_buffer_bytes := 1999 } ⟨10, []⟩).2 = false
    ∧ (debounceFire sampleEnv
        { initSession with audio_buffer := [List.replicate 1999 7], total_buffer_bytes := 1999 } ⟨10, []⟩).1.s =
        { initSession with audio_buffer := [List.replicate 1999 7], total_buffer_bytes := 1999 }
    ∧ ({ initSession with audio_buffer := [List.replicate 1999 7], total_buffer_bytes := 1999 } : Session).audio_buffer ≠ [] := by
  refine ⟨rfl, rfl, by exact List.cons_ne_nil _ _⟩

/-- C3 (amended): when the debounce timer fires, buffered audio is processed
if and only if the buffer is non-empty, the session is idle (not processing,
not turn-locked), and the cumulative byte count has reached the 2000-byte
threshold or the force flag is set — so exactly 2000 bytes trigger processing
and 1999 do not unless forced — and when it does not fire the session state
and transport are left untouched: the buffer is retained, not cleared, and no
transcription happens. -/
theorem debounce_flush_iff (env : TurnEnv) (s : Session) (w : Wire)
    (hmin : s.min_bytes_trigger = 2000) :
    ((debounceFire env s w).2 = true ↔
      (s.audio_buffer ≠ [] ∧ s.is_processing = false ∧ s.turn_locked = false ∧
        (2000 ≤ s.total_buffer_bytes ∨ s.force_next = true)))
    ∧ ((debounceFire env s w).2 = false →
        (debounceFire env s w).1.s = s ∧ (debounceFire env s w).1.w = w ∧
          (debounceFire env s w).1.sttCalled = false) := by
  by_cases hc : s.audio_buffer ≠ [] ∧ ¬ s.is_processing ∧ ¬ s.turn_locked ∧
      (s.total_buffer_bytes ≥ s.min_bytes_trigger ∨ s.force_next)
  · unfold debounceFire
    rw [if_pos hc]
    refine ⟨⟨fun _ => ?_, fun _ => rfl⟩, fun h => absurd h (by simp)⟩
    exact ⟨hc.1, by simpa using hc.2.1, by simpa using hc.2.2.1,
      by rw [← hmin]; simpa using hc.2.2.2⟩
  · unfold debounceFire
    rw [if_neg hc]
    refine ⟨⟨fun h => absurd h (by simp), fun h => absurd ?_ hc⟩,
      fun _ => ⟨rfl, rfl, rfl⟩⟩
    exact ⟨h.1, by simp [h.2.1], by simp [h.2.2.1],
      by rw [hmin]; simpa using h.2.2.2⟩

/-- Witness for the amended debounce theorem: a 2000-byte buffer in an idle
session fires the flush. -/
theorem debounce_flush_iff_witness :
    ({ initSession with audio_buffer := [List.replicate 2000 7], total_buffer_bytes := 2000 } : Session).min_bytes_trigger = 2000
    ∧ (debounceFire sampleEnv
        { initSession with audio_buffer := [List.replicate 2000 7], total_buffer_bytes := 2000 } ⟨10, []⟩).2 = true :=
  ⟨rfl, (debounce_flush_iff sampleEnv
      { initSession with audio_buffer := [List.replicate 2000 7], total_buffer_bytes := 2000 } ⟨10, []⟩ rfl).1.mpr
    ⟨by exact List.cons_ne_nil _ _, rfl, rfl, Or.inl (by norm_num)⟩⟩

/-- C2 counterexample: a binary frame arriving over the websocket while the
agent is speaking is dropped by the half-duplex gate of the websocket loop:
no `interrupted` status is emitted, playback state is untouched, and no fresh
turn buffer is started — the session, including its empty buffer, is left
exactly as it was, contradicting the claimed immediate barge-in. -/
theorem speaking_frame_dropped_counterexample :
    (handleBytesFrame sampleEnv { initSession with is_speaking := true } ⟨10, []⟩
        [5, 5, 5] 1).w.log = []
    ∧ (handleBytesFrame sampleEnv { initSession with is_speaking := true } ⟨10, []⟩
        [5, 5, 5] 1).s = { initSession with is_speaking := true }
    ∧ ({ initSession with is_speaking := true } : Session).is_speaking = true
    ∧ (handleBytesFrame sampleEnv { initSession with is_speaking := true } ⟨10, []⟩
        [5, 5, 5] 1).s.audio_buffer = [] := by
  exact ⟨rfl, rfl, rfl, rfl⟩

/-- C2 (amended): the websocket handler discards binary caller-audio frames
while the agent is speaking (half-duplex gate), so no interruption happens on
that path; the barge-in branch inside `process_audio_chunk` — emit an
`interrupted` status, clear the speaking and turn-lock flags, and restart the
buffer with the arriving frame — executes only when `process_audio_chunk` is
invoked directly with the speaking flag set, an invocation the websocket
handler never makes. -/
theorem barge_in_amended (env : TurnEnv) (s : Session) (w : Wire) (data : Bytes)
    (now : ℚ) (hs : s.is_speaking = true) :
    (handleBytesFrame env s w data now = ⟨s, w, false, false, false, false⟩)
    ∧ (s.use_eleven_conv = false → w.log.length < w.budget →
        (processAudioChunk env s w data now).w.log = w.log ++ [.status "interrupted"]
        ∧ (processAudioChunk env s w data now).s.is_speaking = false
        ∧ (processAudioChunk env s w data now).s.turn_locked = false
        ∧ (processAudioChunk env s w data now).s.audio_buffer = [data]
        ∧ (processAudioChunk env s w data now).s.total_buffer_bytes = data.length
        ∧ (processAudioChunk env s w data now).raised = false) := by
  constructor
  · unfold handleBytesFrame
    rw [hs]
    rfl
  · intro helev hbudget
    unfold processAudioChunk
    rw [if_neg (by simp [helev]), if_pos (by simp [hs])]
    rw [send_ok _ hbudget]
    exact ⟨rfl, rfl, rfl, rfl, rfl, rfl⟩

/-- Witness for the amended barge-in theorem: a concrete speaking session and
one audio frame. -/
theorem barge_in_amended_witness :
    ({ initSession with is_speaking := true } : Session).is_speaking = true
    ∧ handleBytesFrame sampleEnv { initSession with is_speaking := true }
        ⟨10, []⟩ [9] 2 =
      ⟨{ initSession with is_speaking := true }, ⟨10, []⟩, false, false, false, false⟩
    ∧ (processAudioChunk sampleEnv { initSession with is_speaking := true }
        ⟨10, []⟩ [9] 2).w.log = [] ++ [.status "interrupted"] :=
  ⟨rfl,
   (barge_in_amended sampleEnv { initSession with is_speaking := true }
      ⟨10, []⟩ [9] 2 rfl).1,
   ((barge_in_amended sampleEnv { initSession with is_speaking := true }
      ⟨10, []⟩ [9] 2 rfl).2 rfl (by norm_num)).1⟩

lemma processAudioChunk_idle (env : TurnEnv) (s : Session) (w : Wire)
    (data : Bytes) (now : ℚ)
    (helev : s.use_eleven_conv = false) (hsp : s.is_speaking = false)
    (hpr : s.is_processing = false) (hlk : s.turn_locked = false)
    (h0 : s.speech_start_time ≠ 0) :
    (¬ (s.speech_start_time > 0 ∧ now - s.speech_start_time ≥ 3) →
      (processAudioChunk env s w data now).forcedFlush = false
      ∧ (processAudioChunk env s w data now).w = w
      ∧ (processAudioChunk env s w data now).raised = false
      ∧ (processAudioChunk env s w data now).s.use_eleven_conv = false
      ∧ (processAudioChunk env s w data now).s.is_speaking = false
      ∧ (processAudioChunk env s w data now).s.is_processing = false
      ∧ (processAudioChunk env s w data now).s.turn_locked = false
      ∧ (processAudioChunk env s w data now).s.speech_start_time = s.speech_start_time)
    ∧ ((s.speech_start_time > 0 ∧ now - s.speech_start_time ≥ 3) →
      (processAudioChunk env s w data now).forcedFlush = true) := by
  unfold processAudioChunk
  rw [if_neg (by simp [helev])]
  rw [if_neg (by simp [hsp])]
  rw [if_neg (by simp [hpr, hlk])]
  dsimp only
  rw [if_neg h0]
  constructor
  · intro hcond
    split
    · dsimp only
      exact ⟨rfl, rfl, rfl, helev, hsp, hpr, hlk, rfl⟩
    · dsimp only
      exact ⟨rfl, rfl, rfl, helev, hsp, hpr, hlk, rfl⟩
  · intro hcond
    split
    · dsimp only
      split <;> rfl
    · dsimp only
      split <;> rfl

lemma processAudioChunk_first (env : TurnEnv) (s : Session) (w : Wire)
    (data : Bytes) (now : ℚ)
    (helev : s.use_eleven_conv = false) (hsp : s.is_speaking = false)
    (hpr : s.is_processing = false) (hlk : s.turn_locked = false)
    (h0 : s.speech_start_time = 0) :
    (processAudioChunk env s w data now).forcedFlush = false
    ∧ (processAudioChunk env s w data now).w = w
    ∧ (processAudioChunk env s w data now).raised = false
    ∧ (processAudioChunk env s w data now).s.use_eleven_conv = false
    ∧ (processAudioChunk env s w data now).s.is_speaking = false
    ∧ (processAudioChunk env s w data now).s.is_processing = false
    ∧ (processAudioChunk env s w data now).s.turn_locked = false
    ∧ (processAudioChunk env s w data now).s.speech_start_time = now := by
  have hcond : ¬ (now > 0 ∧ now - now ≥ 3) := by
    rintro ⟨_, h2⟩
    rw [sub_self] at h2
    norm_num at h2
  unfold processAudioChunk
  rw [if_neg (by simp [helev])]
  rw [if_neg (by simp [hsp])]
  rw [if_neg (by simp [hpr, hlk])]
  dsimp only
  rw [if_pos h0]
  split
  · dsimp only
    exact ⟨rfl, rfl, rfl, helev, hsp, hpr, hlk, rfl⟩
  · dsimp only
    exact ⟨rfl, rfl, rfl, helev, hsp, hpr, hlk, rfl⟩

lemma pba_sttCalled (env : TurnEnv) (s : Session) (w : Wire)
    (hbuf : s.audio_buffer ≠ []) (hforce : s.force_next = true)
    (hbudget : w.log.length < w.budget) :
    (processBufferedAudio env s w).sttCalled = true := by
  unfold processBufferedAudio processBufferedAudioCore
  rw [send_ok _ hbudget]
  dsimp only
  rw [if_neg (by simpa [List.isEmpty_iff] using hbuf)]
  rw [if_neg (by simp [hforce])]
  rw [if_neg (by simp [hforce])]
  split
  · rename_i r heq
    dsimp only
    repeat' split at heq
    all_goals first
      | (cases heq; rfl)
      | (cases heq)
  · rename_i r heq
    split
    all_goals dsimp only
    all_goals repeat' split at heq
    all_goals first
      | (cases heq; rfl)
      | (cases heq)

lemma runChunks_inv (env : TurnEnv) (t0 : ℚ) (hpos : t0 > 0)
    (rest : List (ℚ × Bytes)) :
    ∀ (s : Session) (w : Wire),
      s.use_eleven_conv = false → s.is_speaking = false →
      s.is_processing = false → s.turn_locked = false →
      s.speech_start_time = t0 →
      runChunksUntilFlush env s w rest =
        (rest.map Prod.fst).find? (fun t => decide (t0 + 3 ≤ t)) := by
  induction rest with
  | nil => intro s w _ _ _ _ _; rfl
  | cons p rest ih =>
    obtain ⟨t, c⟩ := p
    intro s w hel hsp hpr hlk hst
    rw [runChunksUntilFlush]
    by_cases hc : t0 + 3 ≤ t
    · have hcond : s.speech_start_time > 0 ∧ t - s.speech_start_time ≥ 3 := by
        rw [hst]
        exact ⟨hpos, by linarith⟩
      have hff := (processAudioChunk_idle env s w c t hel hsp hpr hlk
        (by rw [hst]; exact ne_of_gt hpos)).2 hcond
      rw [hff]
      rw [List.map_cons, List.find?_cons_of_pos _ (by simpa using hc)]
      rfl
    · have hcond : ¬ (s.speech_start_time > 0 ∧ t - s.speech_start_time ≥ 3) := by
        rw [hst]
        rintro ⟨_, h2⟩
        exact hc (by linarith)
      obtain ⟨hff, hw, _, hel2, hsp2, hpr2, hlk2, hst2⟩ :=
        (processAudioChunk_idle env s w c t hel hsp hpr hlk
          (by rw [hst]; exact ne_of_gt hpos)).1 hcond
      rw [hff]
      rw [if_neg (by simp)]
      rw [ih _ _ hel2 hsp2 hpr2 hlk2 (by rw [hst2, hst])]
      rw [List.map_cons, List.find?_cons_of_neg _ (by simpa using hc)]

/-- C4: the hard maximum turn duration.  For a chunk arriving while the
session is idle and a turn is in progress (speech start recorded), the hard
ceiling forces `process_buffered_audio` in that very invocation exactly when
at least 3 seconds have elapsed since speech start; the forced flush reaches
the transcription stage even though only this chunk is buffered, bypassing
the minimum-byte threshold (the force flag is set first); and over any
sequence of chunk arrivals of one continuous turn, the forced flush happens
at the first chunk whose arrival time is at least 3 seconds after the first
chunk of the turn — for a 3.2 second monologue with densely arriving chunks,
at the 3-second mark and not later. -/
theorem hard_max_flush :
    (∀ (env : TurnEnv) (s : Session) (w : Wire) (data : Bytes) (now : ℚ),
      s.use_eleven_conv = false → s.is_speaking = false →
      s.is_processing = false → s.turn_locked = false →
      s.speech_start_time > 0 →
      ((processAudioChunk env s w data now).forcedFlush = true ↔
        now - s.speech_start_time ≥ 3))
    ∧ (∀ (env : TurnEnv) (s : Session) (w : Wire) (data : Bytes) (now : ℚ),
      s.use_eleven_conv = false → s.is_speaking = false →
      s.is_processing = false → s.turn_locked = false →
      s.speech_start_time > 0 → now - s.speech_start_time ≥ 3 →
      w.log.length < w.budget →
      (processAudioChunk env s w data now).sttCalled = true)
    ∧ (∀ (env : TurnEnv) (s : Session) (w : Wire) (t0 : ℚ) (c0 : Bytes)
        (rest : List (ℚ × Bytes)),
      s.use_eleven_conv = false → s.is_speaking = false →
      s.is_processing = false → s.turn_locked = false →
      s.speech_start_time = 0 → t0 > 0 →
      runChunksUntilFlush env s w ((t0, c0) :: rest) =
        (rest.map Prod.fst).find? (fun t => decide (t0 + 3 ≤ t))) := by
  refine ⟨?_, ?_, ?_⟩
  · intro env s w data now hel hsp hpr hlk hpos
    constructor
    · intro hff
      by_contra hlt
      have hcond : ¬ (s.speech_start_time > 0 ∧ now - s.speech_start_time ≥ 3) := by
        rintro ⟨_, h2⟩
        exact hlt h2
      have := ((processAudioChunk_idle env s w data now hel hsp hpr hlk
        (ne_of_gt hpos)).1 hcond).1
      rw [hff] at this
      cases this
    · intro hge
      exact (processAudioChunk_idle env s w data now hel hsp hpr hlk
        (ne_of_gt hpos)).2 ⟨hpos, hge⟩
  · intro env s w data now hel hsp hpr hlk hpos hge hbudget
    unfold processAudioChunk
    rw [if_neg (by simp [hel])]
    rw [if_neg (by simp [hsp])]
    rw [if_neg (by simp [hpr, hlk])]
    dsimp only
    rw [if_neg (ne_of_gt hpos)]
    have hcond : s.speech_start_time > 0 ∧ now - s.speech_start_time ≥ 3 := ⟨hpos, hge⟩
    split
    · dsimp only
      rw [pba_sttCalled env _ _ (by simp) rfl hbudget]
      split <;> rfl
    · dsimp only
      rw [pba_sttCalled env _ _ (by simp) rfl hbudget]
      split <;> rfl
  · intro env s w t0 c0 rest hel hsp hpr hlk hst hpos
    rw [runChunksUntilFlush]
    obtain ⟨hff, hw, _, hel2, hsp2, hpr2, hlk2, hst2⟩ :=
      processAudioChunk_first env s w c0 t0 hel hsp hpr hlk hst
    rw [hff]
    rw [if_neg (by simp)]
    exact runChunks_inv env t0 hpos rest _ _ hel2 hsp2 hpr2 hlk2 hst2

/-- Witness for the hard-maximum theorem: a fresh session receiving chunks at
seconds 1, 2, 3 and 4.2 of the call; the first chunk with at least 3 seconds
of elapsed turn is the one at 4.2, and a single-chunk invocation at second 5
of a turn started at second 1 reaches transcription. -/
theorem hard_max_flush_witness :
    runChunksUntilFlush sampleEnv initSession ⟨10, []⟩
        [(1, [1]), (2, [2]), (3, [3]), (21/5, [4])] = some (21/5)
    ∧ (processAudioChunk sampleEnv { initSession with speech_start_time := 1 }
        ⟨10, []⟩ [9] 5).sttCalled = true := by
  constructor
  · rw [hard_max_flush.2.2 sampleEnv initSession ⟨10, []⟩ 1 [1]
      [(2, [2]), (3, [3]), (21/5, [4])] rfl rfl rfl rfl rfl (by norm_num)]
    norm_num [List.find?]
  · exact hard_max_flush.2.1 sampleEnv
      { initSession with speech_start_time := 1 } ⟨10, []⟩ [9] 5
      rfl rfl rfl rfl (by norm_num) (by norm_num) (by norm_num)

lemma send_ok_append (w : Wire) (l : List Event) (e : Event)
    (h : w.log.length + l.length < w.budget) :
    (⟨w.budget, w.log ++ l⟩ : Wire).send e = some ⟨w.budget, (w.log ++ l) ++ [e]⟩ := by
  apply send_ok
  simpa using h

/-- C5: the consecutive-failure policy of `process_buffered_audio`.  On a
turn whose transcription is empty or too short, the failure counter is
incremented; while the incremented counter is below three, the session sends
only the `thinking` and `listening` status events — no utterance, no reply —
and resumes listening with the lock released; when the incremented counter
reaches three, exactly one clarification reply (`tts_url`) is emitted between
the `speaking` and `listening` status events and the counter is reset to
zero. -/
theorem failed_transcription_policy (env : TurnEnv) (s : Session) (w : Wire)
    (hbuf : s.audio_buffer ≠ []) (hforce : s.force_next = true)
    (hfail : env.transcription = "" ∨ tooShort env.transcription)
    (hbudget : w.budget ≥ w.log.length + 4) :
    (s.failed_transcription_count + 1 < 3 →
      (processBufferedAudio env s w).s.failed_transcription_count
          = s.failed_transcription_count + 1
      ∧ (processBufferedAudio env s w).w.log
          = w.log ++ [.status "thinking", .status "listening"]
      ∧ (processBufferedAudio env s w).raised = false
      ∧ (processBufferedAudio env s w).s.turn_locked = false
      ∧ (processBufferedAudio env s w).s.is_processing = false)
    ∧ (s.failed_transcription_count + 1 ≥ 3 → ∀ u, env.synthUrl = some u →
      (processBufferedAudio env s w).s.failed_transcription_count = 0
      ∧ (processBufferedAudio env s w).w.log
          = w.log ++ [.status "thinking", .status "speaking", .ttsUrl u,
              .status "listening"]
      ∧ (processBufferedAudio env s w).raised = false
      ∧ (processBufferedAudio env s w).s.turn_locked = false
      ∧ (processBufferedAudio env s w).s.is_processing = false) := by
  unfold processBufferedAudio processBufferedAudioCore
  rw [send_ok _ (by omega)]
  dsimp only
  rw [if_neg (by simpa [List.isEmpty_iff] using hbuf)]
  rw [if_neg (by simp [hforce])]
  rw [if_neg (by simp [hforce])]
  by_cases hemp : env.transcription = ""
  · rw [if_pos hemp]
    by_cases hcnt : s.failed_transcription_count + 1 ≥ 3
    · rw [if_pos hcnt]
      refine ⟨fun hlt => absurd hcnt (by omega), fun _ u hu => ?_⟩
      rw [hu]
      dsimp only
      rw [send_ok_append w [.status "thinking"] _ (by simp; omega)]
      simp only [List.append_assoc, List.singleton_append, List.cons_append,
        List.nil_append]
      rw [Wire.sendWrapped, send_ok_append w [.status "thinking", .status "speaking"] _ (by simp; omega)]
      dsimp only [Option.getD_some]
      simp only [List.append_assoc, List.singleton_append, List.cons_append,
        List.nil_append]
      rw [send_ok_append w [.status "thinking", .status "speaking", .ttsUrl u] _ (by simp; omega)]
      dsimp only
      refine ⟨rfl, by simp, rfl, rfl, rfl⟩
    · rw [if_neg hcnt]
      refine ⟨fun _ => ?_, fun hge => absurd hge hcnt⟩
      rw [send_ok_append w [.status "thinking"] _ (by simp; omega)]
      dsimp only
      refine ⟨rfl, by simp, rfl, rfl, rfl⟩
  · rw [if_neg hemp]
    have hshort : (normText env.transcription).length < 8 ∨
        (splitWs (normText env.transcription)).length < 2 := by
      rcases hfail with h | h
      · exact absurd h hemp
      · exact h
    rw [if_pos hshort]
    by_cases hcnt : s.failed_transcription_count + 1 ≥ 3
    · rw [if_pos hcnt]
      refine ⟨fun hlt => absurd hcnt (by omega), fun _ u hu => ?_⟩
      rw [hu]
      dsimp only
      rw [send_ok_append w [.status "thinking"] _ (by simp; omega)]
      simp only [List.append_assoc, List.singleton_append, List.cons_append,
        List.nil_append]
      rw [Wire.sendWrapped, send_ok_append w [.status "thinking", .status "speaking"] _ (by simp; omega)]
      dsimp only [Option.getD_some]
      simp only [List.append_assoc, List.singleton_append, List.cons_append,
        List.nil_append]
      rw [send_ok_append w [.status "thinking", .status "speaking", .ttsUrl u] _ (by simp; omega)]
      dsimp only
      refine ⟨rfl, by simp, rfl, rfl, rfl⟩
    · rw [if_neg hcnt]
      refine ⟨fun _ => ?_, fun hge => absurd hge hcnt⟩
      rw [send_ok_append w [.status "thinking"] _ (by simp; omega)]
      dsimp only
      refine ⟨rfl, by simp, rfl, rfl, rfl⟩

/-- Witness for the failure-policy theorem: a forced one-chunk turn with an
empty transcription, once at counter 0 (stays silent) and once at counter 2
(speaks the clarification and resets). -/
theorem failed_transcription_policy_witness :
    ((0 : Nat) + 1 < 3 ∧
      (processBufferedAudio { sampleEnv with transcription := "" }
        { initSession with audio_buffer := [[1]], total_buffer_bytes := 1, force_next := true }
        ⟨10, []⟩).w.log = [] ++ [.status "thinking", .status "listening"])
    ∧ ((2 : Nat) + 1 ≥ 3 ∧
      (processBufferedAudio { sampleEnv with transcription := "" }
        { initSession with audio_buffer := [[1]], total_buffer_bytes := 1, force_next := true, failed_transcription_count := 2 }
        ⟨10, []⟩).w.log =
        [] ++ [.status "thinking", .status "speaking",
          .ttsUrl "/api/audio/tts/u1.mp3", .status "listening"]) := by
  constructor
  · refine ⟨by norm_num, ?_⟩
    have h := (failed_transcription_policy { sampleEnv with transcription := "" }
      { initSession with audio_buffer := [[1]], total_buffer_bytes := 1, force_next := true }
      ⟨10, []⟩ (List.cons_ne_nil _ _) rfl (Or.inl rfl) (by norm_num)).1 (by decide)
    exact h.2.1
  · refine ⟨by norm_num, ?_⟩
    have h := ((failed_transcription_policy { sampleEnv with transcription := "" }
      { initSession with audio_buffer := [[1]], total_buffer_bytes := 1, force_next := true, failed_transcription_count := 2 }
      ⟨10, []⟩ (List.cons_ne_nil _ _) rfl (Or.inl rfl) (by norm_num)).2 (by decide)
      "/api/audio/tts/u1.mp3" rfl)
    exact h.2.1

lemma pbaCore_ok_flags (env : TurnEnv) (s : Session) (w : Wire) (r : PBAState)
    (h : processBufferedAudioCore env s w = .ok r) :
    r.s.turn_locked = false ∧ r.s.is_processing = false := by
  unfold processBufferedAudioCore at h
  dsimp only at h
  repeat' split at h
  all_goals first
    | (cases h; exact ⟨rfl, rfl⟩)
    | (cases h)

/-- C10 counterexample: with a websocket that dies after delivering one
message, an invocation of `process_buffered_audio` on an empty buffer sends
`thinking`, takes the turn lock, then raises on the `listening` send; the
handler's own `error` status send raises as well, so the exception escapes
the method with the turn lock still held and the processing flag still set,
contradicting the claim that every exit path clears both flags. -/
theorem lock_leak_counterexample :
    (processBufferedAudio sampleEnv initSession ⟨1, []⟩).raised = true
    ∧ (processBufferedAudio sampleEnv initSession ⟨1, []⟩).s.turn_locked = true
    ∧ (processBufferedAudio sampleEnv initSession ⟨1, []⟩).s.is_processing = true :=
  ⟨rfl, rfl, rfl⟩

/-- C10 (amended): whenever `process_buffered_audio` returns without an
escaping exception — every early return, the normal completion, and the
handled-exception path on which the `error` status send succeeds — the turn
lock is released and the processing flag is cleared; the flags can leak only
when a status send raises mid-turn and the handler's `error` status send
raises as well, which requires the websocket to be dead. -/
theorem lock_released_unless_handler_raises (env : TurnEnv) (s : Session)
    (w : Wire) (h : (processBufferedAudio env s w).raised = false) :
    (processBufferedAudio env s w).s.turn_locked = false
    ∧ (processBufferedAudio env s w).s.is_processing = false := by
  unfold processBufferedAudio at h ⊢
  cases hcore : processBufferedAudioCore env s w with
  | ok r =>
    exact pbaCore_ok_flags env s w r hcore
  | error r =>
    rw [hcore] at h
    dsimp only at h ⊢
    cases hsend : r.w.send (.status "error") with
    | some w2 =>
      exact ⟨rfl, rfl⟩
    | none =>
      rw [hsend] at h
      cases h

/-- Witness for the amended lock-release theorem: a full successful turn on a
healthy socket ends unlocked. -/
theorem lock_released_witness :
    (processBufferedAudio sampleEnv initSession ⟨10, []⟩).raised = false
    ∧ (processBufferedAudio sampleEnv initSession ⟨10, []⟩).s.turn_locked = false
    ∧ (processBufferedAudio sampleEnv initSession ⟨10, []⟩).s.is_processing = false :=
  ⟨rfl,
   (lock_released_unless_handler_raises sampleEnv initSession ⟨10, []⟩ rfl).1,
   (lock_released_unless_handler_raises sampleEnv initSession ⟨10, []⟩ rfl).2⟩

lemma countTts_after_status_send {w w1 : Wire} {x : String}
    (h : w.send (.status x) = some w1) :
    countTts w1.log = countTts w.log := by
  rw [(send_log h).1, countTts_status]

lemma send_eq_some {w w1 : Wire} {e : Event} :
    w.send e = some w1 ↔ (w.log.length < w.budget ∧ w1 = ⟨w.budget, w.log ++ [e]⟩) := by
  unfold Wire.send
  split
  · simp [eq_comm]
    intro h
    assumption
  · simp
    intro h
    omega

lemma send_eq_none {w : Wire} {e : Event} :
    w.send e = none ↔ ¬ w.log.length < w.budget := by
  unfold Wire.send
  split <;> simp_all

set_option maxHeartbeats 2000000 in
lemma pbaCore_countTts (env : TurnEnv) (s : Session) (w : Wire) (r : PBAState)
    (h : processBufferedAudioCore env s w = .ok r ∨
      processBufferedAudioCore env s w = .error r) :
    countTts r.w.log ≤ countTts w.log + 1 := by
  rcases hsu : env.synthUrl with _ | u <;>
  rcases h with h | h <;>
  · unfold processBufferedAudioCore at h
    rw [hsu] at h
    dsimp only at h
    repeat' split at h
    all_goals cases h
    all_goals try simp_all only [send_eq_some, send_eq_none]
    all_goals try simp only [Wire.sendWrapped, Wire.send]
    all_goals repeat' split
    all_goals simp only [countTts, List.countP_append, List.countP_cons,
      List.countP_nil, isTts, Option.getD_some, Option.getD_none]
    all_goals try omega
    all_goals simp

lemma countTts_bound (env : TurnEnv) (s : Session) (w : Wire) :
    countTts (processBufferedAudio env s w).w.log ≤ countTts w.log + 1 := by
  unfold processBufferedAudio
  cases hcore : processBufferedAudioCore env s w with
  | ok r => exact pbaCore_countTts env s w r (Or.inl hcore)
  | error r =>
    dsimp only
    cases hsend : r.w.send (.status "error") with
    | some w2 =>
      dsimp only
      rw [countTts_after_status_send hsend]
      exact pbaCore_countTts env s w r (Or.inr hcore)
    | none =>
      exact pbaCore_countTts env s w r (Or.inr hcore)

/-- C1 counterexample: a completed turn whose speech was accepted (the
transcription stage ran and both a user and an assistant entry were appended
to the conversation history) but whose text-to-speech call failed emits ZERO
replies — the log holds only the status events — contradicting the claim
that exactly one reply, never zero, is emitted per completed turn. -/
theorem zero_reply_counterexample :
    (processBufferedAudio { sampleEnv with synthUrl := none }
        { initSession with audio_buffer := [[1]], total_buffer_bytes := 1, force_next := true }
        ⟨10, []⟩).sttCalled = true
    ∧ (processBufferedAudio { sampleEnv with synthUrl := none }
        { initSession with audio_buffer := [[1]], total_buffer_bytes := 1, force_next := true }
        ⟨10, []⟩).s.conversation_history.length = 2
    ∧ (processBufferedAudio { sampleEnv with synthUrl := none }
        { initSession with audio_buffer := [[1]], total_buffer_bytes := 1, force_next := true }
        ⟨10, []⟩).w.log =
      [.status "thinking", .status "speaking", .status "listening"]
    ∧ countTts (processBufferedAudio { sampleEnv with synthUrl := none }
        { initSession with audio_buffer := [[1]], total_buffer_bytes := 1, force_next := true }
        ⟨10, []⟩).w.log = 0 := by
  exact ⟨rfl, rfl, rfl, rfl⟩

/-- C1 (amended): per invocation of `process_buffered_audio` at most one
reply (`tts_url` message) is emitted, and on an accepted turn with a
succeeding synthesis and a healthy socket exactly one reply is emitted,
framed by the `speaking` and `listening` status events; while the session is
processing or turn-locked (a reply still in flight), incoming audio chunks
are dropped without starting another turn, so no second reply can be
initiated concurrently. -/
theorem single_reply_per_turn :
    (∀ (env : TurnEnv) (s : Session) (w : Wire),
      countTts (processBufferedAudio env s w).w.log ≤ countTts w.log + 1)
    ∧ (∀ (env : TurnEnv) (s : Session) (w : Wire) (u : String),
      s.audio_buffer ≠ [] → s.force_next = true →
      env.transcription ≠ "" → ¬ tooShort env.transcription →
      env.synthUrl = some u → w.budget ≥ w.log.length + 4 →
      (processBufferedAudio env s w).w.log =
        w.log ++ [.status "thinking", .status "speaking", .ttsUrl u,
          .status "listening"]
      ∧ (processBufferedAudio env s w).raised = false)
    ∧ (∀ (env : TurnEnv) (s : Session) (w : Wire) (data : Bytes) (now : ℚ),
      s.use_eleven_conv = false → s.is_speaking = false →
      (s.is_processing = true ∨ s.turn_locked = true) →
      processAudioChunk env s w data now = ⟨s, w, false, false, false, false⟩) := by
  refine ⟨countTts_bound, ?_, ?_⟩
  · intro env s w u hbuf hforce htr hshort hsynth hbudget
    unfold processBufferedAudio processBufferedAudioCore
    rw [send_ok _ (by omega)]
    dsimp only
    rw [if_neg (by simpa [List.isEmpty_iff] using hbuf)]
    rw [if_neg (by simp [hforce])]
    rw [if_neg (by simp [hforce])]
    rw [if_neg htr]
    have hshort2 : ¬ ((normText env.transcription).length < 8 ∨
        (splitWs (normText env.transcription)).length < 2) := hshort
    rw [if_neg hshort2]
    rw [send_ok_append w [.status "thinking"] _ (by simp; omega)]
    simp only [List.append_assoc, List.singleton_append, List.cons_append,
      List.nil_append]
    rw [hsynth]
    dsimp only
    rw [Wire.sendWrapped, send_ok_append w [.status "thinking", .status "speaking"] _ (by simp; omega)]
    dsimp only [Option.getD_some]
    simp only [List.append_assoc, List.singleton_append, List.cons_append,
      List.nil_append]
    rw [send_ok_append w [.status "thinking", .status "speaking", .ttsUrl u] _ (by simp; omega)]
    dsimp only
    exact ⟨by simp, rfl⟩
  · intro env s w data now hel hsp hbusy
    unfold processAudioChunk
    rw [if_neg (by simp [hel])]
    rw [if_neg (by simp [hsp])]
    rw [if_pos (by rcases hbusy with h | h <;> simp [h])]

/-- Witness for the single-reply theorem: a forced accepted turn with a
succeeding synthesis emits exactly the four expected frames, and a busy
session drops an incoming chunk. -/
theorem single_reply_per_turn_witness :
    ((processBufferedAudio sampleEnv
        { initSession with audio_buffer := [[1]], total_buffer_bytes := 1, force_next := true }
        ⟨10, []⟩).w.log =
      [] ++ [.status "thinking", .status "speaking",
        .ttsUrl "/api/audio/tts/u1.mp3", .status "listening"])
    ∧ processAudioChunk sampleEnv { initSession with is_processing := true }
        ⟨10, []⟩ [7] 1 =
      ⟨{ initSession with is_processing := true }, ⟨10, []⟩, false, false, false, false⟩ := by
  constructor
  · exact ((single_reply_per_turn.2.1 sampleEnv
      { initSession with audio_buffer := [[1]], total_buffer_bytes := 1, force_next := true }
      ⟨10, []⟩ "/api/audio/tts/u1.mp3" (List.cons_ne_nil _ _) rfl
      (by decide) (by decide) rfl (by norm_num)).1)
  · exact single_reply_per_turn.2.2 sampleEnv
      { initSession with is_processing := true } ⟨10, []⟩ [7] 1
      rfl rfl (Or.inl rfl)

end VocalIQ
